import Mathlib

/-
  Verification development for the MEMRL repository, file
  src/rl_network/actorcritic.py.

  The Python code is shallowly embedded over exact rational arithmetic:
  torch tensors become matrices of rationals (`Mat`, a list of rows),
  torch layer primitives (whose weights are runtime data produced by
  torch's random initialisation) become abstract per-layer transforms
  collected in a `Cells` structure, and fallible Python code (asserts,
  IndexError, raised exceptions) becomes `Except String`.
-/

/-- A torch tensor of rank ≤ 2, modelled as a list of rows of rationals. -/
abbrev Mat := List (List ℚ)

/-- Model of `torch.zeros(bs, n)`: a `bs` by `n` matrix of zeros. -/
def zerosM (bs n : ℕ) : Mat :=
  List.replicate bs (List.replicate n (0 : ℚ))

/-- The hidden-layer type strings accepted by `AC_Net.__init__`
(`'linear'`, `'lstm'`, `'gru'`, `'conv'`, `'pool'`). -/
inductive HType where
  | linear
  | lstm
  | gru
  | conv
  | pool
deriving DecidableEq

/-- A dimension entry: either a scalar width (Python `int`) or a spatial
`(height, width, channels)` triple (Python `tuple`). -/
inductive Dims where
  | num (n : ℕ)
  | triple (h w c : ℕ)
deriving DecidableEq

/-- Layer kinds treated as spatial in `AC_Net.__init__` and `forward`
(the `htype in ['conv','pool']` checks). -/
def isSpatial : HType → Bool
  | .conv => true
  | .pool => true
  | _ => false

/-- Layer kinds that keep recurrent state (`nn.LSTMCell` / `nn.GRUCell`). -/
def isRecurrent : HType → Bool
  | .lstm => true
  | .gru => true
  | _ => false

/-- The `int(np.prod(dims))` flattening used at the conv/pool to non-spatial transition. -/
def flattenDims : Dims → Dims
  | .num n => .num n
  | .triple h w c => .num (h * w * c)

/-- A `SavedAction` record (`namedtuple('SavedAction', ['log_prob','value'])`).
The log-probability is a scalar rational (the float value torch would store). -/
structure SavedAction where
  log_prob : ℚ
  value : ℚ
deriving DecidableEq

/-
  ## discount_rwds

  Source (actorcritic.py lines 354-360):
    disc_rwds = np.zeros_like(r)
    running_add = 0
    for t in reversed(range(0, r.size)):
      running_add = running_add*gamma + r[t]
      disc_rwds[t] = running_add
    return disc_rwds

  The reversed loop is the structural recursion below: the tail of the
  list is processed first, and the pair carries (the portion of
  disc_rwds already filled in, the current running_add).
-/

/-- The body of the reversed loop of `discount_rwds`: returns the filled
suffix of `disc_rwds` together with the final `running_add`. -/
def discAux (gamma : ℚ) : List ℚ → List ℚ × ℚ
  | [] => ([], 0)
  | x :: xs =>
    let p := discAux gamma xs
    let running_add := p.2 * gamma + x
    (running_add :: p.1, running_add)

/-- Model of `discount_rwds(r, gamma)`: discounted returns computed by a
right-to-left accumulation. -/
def discount_rwds (r : List ℚ) (gamma : ℚ) : List ℚ :=
  (discAux gamma r).1

/-
  ## The AC_Net data model

  `AC_Net.__init__` (lines 36-170) stores: `input_d`, `input_type`
  (determined by `input_d`, so not repeated here), `batch_size`, the
  hidden layer list (each entry keeping its type and declared output
  dimensions), the parallel hidden/cell state lists `hx`/`cx` (entries
  are `None` for non-recurrent layers), the `layers` bookkeeping list,
  `output_d`, and the trial-scoped `saved_actions`/`rewards` buffers.
  The torch weight tensors of each layer are runtime data created by
  torch; they are modelled separately as abstract transforms (`Cells`).
-/

structure AC_Net where
  input_d : Dims
  batch_size : ℕ
  hidden : List (HType × Dims)
  hx : List (Option Mat)
  cx : List (Option Mat)
  layers : List Dims
  output_d : Dims
  saved_actions : List SavedAction
  rewards : List ℚ
deriving DecidableEq

/-- True when the network has no recurrent (lstm/gru) hidden layers. -/
def noRecurrent (net : AC_Net) : Bool :=
  net.hidden.all (fun l => !isRecurrent l.1)

/-
  ## AC_Net.__init__ (lines 36-170), as Except over configuration errors

  Python exception points modelled as `Except.error`:
  - line 76/79: `hidden_types[0]` on an empty list raises IndexError;
    with a nonempty list, the assert on the first layer type raises
    AssertionError when it is incompatible with the input kind.
  - line 86: `assert len(hidden_types) is len(hidden_dimensions)`; `is`
    on the two freshly computed equal small ints coincides with `==` in
    CPython, and on unequal lengths the assert always fires.  Only the
    unequal direction is relied on by any theorem below.
  - lines 89-96 (empty hidden_types): this branch never binds
    `output_d`, so line 166 `self.output_d = output_d` raises NameError.
    It is unreachable anyway, because line 76/79 raises first.
  - loop lines 104-157: conv/pool geometry asserts (lines 126-127 and
    132-133), plus the TypeErrors torch raises when an `int` dimension
    is supplied where a layer needs a tuple or vice versa.  Note line
    131 of the source computes the pool output width from `input_d[0]`
    (the height), which is kept faithfully below.
  - lines 161-163: `nn.Linear(output_d, ...)` needs an `int`; a trailing
    conv/pool layer leaves `output_d` a tuple, a TypeError.
-/

/-- One iteration of the layer-construction loop of `AC_Net.__init__`
(lines 104-157).  Arguments: batch size, rfsize, padding, stride, the
previous layer type (`none` for the first layer), the raw output
dimensions of the previous layer (or the input dimensions), then the
remaining `hidden_types` and `hidden_dimensions`.  Returns the built
layer list, the parallel `hx`/`cx` initial-state lists, and the final
`output_d`. -/
def buildLayers (bs rf pad st : ℕ) :
    Option HType → Dims → List HType → List Dims →
    Except String (List (HType × Dims) × List (Option Mat) × List (Option Mat) × Dims)
  | _, cur, [], _ => .ok ([], [], [], cur)
  | _, _, _ :: _, [] => .error "IndexError: hidden_dimensions index out of range"
  | prev, cur, ht :: hts, d :: ds =>
    -- lines 110-116: input dimensions of this layer
    let input_d : Dims :=
      if (prev.map isSpatial).getD false && !isSpatial ht then flattenDims cur else cur
    match ht with
    | .linear =>
      match input_d, d with
      | .num _, .num n =>
        match buildLayers bs rf pad st (some .linear) (.num n) hts ds with
        | .error e => .error e
        | .ok (ls, hs, cs, out) => .ok ((.linear, .num n) :: ls, none :: hs, none :: cs, out)
      | _, _ => .error "TypeError: nn.Linear dimensions must be int"
    | .lstm =>
      match input_d, d with
      | .num _, .num n =>
        match buildLayers bs rf pad st (some .lstm) (.num n) hts ds with
        | .error e => .error e
        | .ok (ls, hs, cs, out) =>
          .ok ((.lstm, .num n) :: ls, some (zerosM bs n) :: hs, some (zerosM bs n) :: cs, out)
      | _, _ => .error "TypeError: nn.LSTMCell dimensions must be int"
    | .gru =>
      match input_d, d with
      | .num _, .num n =>
        match buildLayers bs rf pad st (some .gru) (.num n) hts ds with
        | .error e => .error e
        | .ok (ls, hs, cs, out) =>
          .ok ((.gru, .num n) :: ls, some (zerosM bs n) :: hs, none :: cs, out)
      | _, _ => .error "TypeError: nn.GRUCell dimensions must be int"
    | .conv =>
      match input_d, d with
      | .triple h w _, .triple dh dw dc =>
        -- lines 124-127: output_d[k] = floor((input_d[k] + 2*padding - rfsize)/stride) + 1
        let oh : ℤ := ((h : ℤ) + 2 * pad - rf).fdiv st + 1
        let ow : ℤ := ((w : ℤ) + 2 * pad - rf).fdiv st + 1
        if oh = dh ∧ ow = dw then
          match buildLayers bs rf pad st (some .conv) (.triple dh dw dc) hts ds with
          | .error e => .error e
          | .ok (ls, hs, cs, out) => .ok ((.conv, .triple dh dw dc) :: ls, none :: hs, none :: cs, out)
        else .error "AssertionError: conv output dims disagree with declared dims"
      | _, _ => .error "TypeError: conv layer needs tuple dimensions"
    | .pool =>
      match input_d, d with
      | .triple h _ _, .triple dh dw dc =>
        -- lines 130-131: both output dims computed from input_d[0] in the source
        let oh : ℤ := ((h : ℤ) + 2 * pad - ((rf : ℤ) - 1) - 1).fdiv st + 1
        let ow : ℤ := ((h : ℤ) + 2 * pad - ((rf : ℤ) - 1) - 1).fdiv st + 1
        if oh = dh ∧ ow = dw then
          match buildLayers bs rf pad st (some .pool) (.triple dh dw dc) hts ds with
          | .error e => .error e
          | .ok (ls, hs, cs, out) => .ok ((.pool, .triple dh dw dc) :: ls, none :: hs, none :: cs, out)
        else .error "AssertionError: pool output dims disagree with declared dims"
      | _, _ => .error "TypeError: pool layer needs tuple dimensions"

/-- Model of `AC_Net.__init__(input_dimensions, action_dimensions, batch_size,
hidden_types, hidden_dimensions, rfsize, padding, stride)`. -/
def AC_Net_init (input_dimensions : Dims) (action_dimensions : ℕ)
    (hidden_types : List HType) (hidden_dimensions : List Dims)
    (batch_size rfsize padding stride : ℕ) : Except String AC_Net :=
  -- lines 75-80: input-kind check reads hidden_types[0]
  match hidden_types.head? with
  | none => .error "IndexError: hidden_types index out of range"
  | some h0 =>
    let kindOk := match input_dimensions with
      | .num _ => !isSpatial h0
      | .triple _ _ _ => isSpatial h0
    if !kindOk then .error "AssertionError: first hidden layer incompatible with input kind"
    else if hidden_types.length ≠ hidden_dimensions.length then
      -- line 86
      .error "AssertionError: len of hidden_types does not match len of hidden_dimensions"
    else if hidden_types.isEmpty then
      -- lines 89-96 and 166, unreachable after the head check above
      .error "NameError: name output_d is not defined"
    else
      match buildLayers batch_size rfsize padding stride none input_dimensions
          hidden_types hidden_dimensions with
      | .error e => .error e
      | .ok (ls, hs, cs, out) =>
        -- lines 160-163: nn.Linear(output_d, action_dimensions) needs an int
        match out with
        | .triple _ _ _ => .error "TypeError: nn.Linear dimensions must be int"
        | .num od =>
          .ok { input_d := input_dimensions
                batch_size := batch_size
                hidden := ls
                hx := hs
                cx := cs
                layers := input_dimensions :: hidden_dimensions ++ [.num action_dimensions]
                output_d := .num od
                saved_actions := []
                rewards := [] }

/-
  ## AC_Net.reinit_hid (lines 224-241)

  Rebuilds `self.hx`/`self.cx` from scratch, appending entries ONLY for
  lstm and gru layers (the linear/conv/pool branches are `pass`, they
  append nothing), using each recurrent layer's declared hidden width.
-/

/-- The loop body of `reinit_hid`. -/
def reinitLists (bs : ℕ) : List (HType × Dims) → List (Option Mat) × List (Option Mat)
  | [] => ([], [])
  | (ht, d) :: rest =>
    let p := reinitLists bs rest
    let n := match d with
      | .num n => n
      | .triple h w c => h * w * c    -- unreachable: recurrent layers are built with .num dims
    match ht with
    | .lstm => (some (zerosM bs n) :: p.1, some (zerosM bs n) :: p.2)
    | .gru => (some (zerosM bs n) :: p.1, none :: p.2)
    | _ => p

/-- Model of `reinit_hid()`: replaces `hx`/`cx` with the freshly built lists. -/
def reinit_hid (net : AC_Net) : AC_Net :=
  let p := reinitLists net.batch_size net.hidden
  { net with hx := p.1, cx := p.2 }

/-
  ## AC_Net.forward (lines 174-221)

  The per-layer torch transforms (whose weight tensors torch fills with
  random values at construction) are modelled as abstract functions in
  `Cells`, indexed by the layer position; `actorT`/`criticT` are the two
  output `nn.Linear` layers (`criticT` composed with `.item()`), and
  `expT` stands for the float exponential inside `F.softmax`.
-/

structure Cells where
  linearT : ℕ → Mat → Mat
  lstmT : ℕ → Mat → Mat × Mat → Mat × Mat
  gruT : ℕ → Mat → Mat → Mat
  convT : ℕ → Mat → Mat
  poolT : ℕ → Mat → Mat
  actorT : Mat → Mat
  criticT : Mat → ℚ
  expT : ℚ → ℚ

/-- Model of `F.relu` on a matrix. -/
def reluM (m : Mat) : Mat :=
  m.map (List.map (fun a => max a 0))

/-- The `x.view(1, -1)` squeeze at the spatial to non-spatial transition (line 198):
all entries flattened into a single row. -/
def flattenRow (m : Mat) : Mat :=
  [m.flatten]

/-- One row of `F.softmax(logits, dim=1)`. -/
def softmaxRow (expf : ℚ → ℚ) (row : List ℚ) : List ℚ :=
  let e := row.map expf
  e.map (fun v => v / e.sum)

/-- Reading `self.hx[i]` / `self.cx[i]` inside `forward`: IndexError
when the list is too short, TypeError when the stored entry is `None`
(unpacking `None` as a state tensor). -/
def getState (l : List (Option Mat)) (i : ℕ) : Except String Mat :=
  match l.get? i with
  | some (some m) => .ok m
  | some none => .error "TypeError: recurrent state is None"
  | none => .error "IndexError: state list index out of range"

/-- Result of `forward`: the softmax policy, the value estimate, the
`lin_activity` third output (present only when the last hidden layer is
linear, line 218), and the network with its updated `hx`/`cx`. -/
structure FwdOut where
  policy : Mat
  value : ℚ
  lin_activity : Option Mat
  net : AC_Net
deriving DecidableEq

/-- The hidden-layer loop of `forward` (lines 193-213), recursing over
the remaining layers with the current index, previous layer type,
activation, state lists and last linear activity. -/
def fwdLoop (c : Cells) :
    List (HType × Dims) → ℕ → Option HType → Mat →
    List (Option Mat) → List (Option Mat) → Option Mat →
    Except String (Mat × List (Option Mat) × List (Option Mat) × Option Mat)
  | [], _, _, x, hx, cx, la => .ok (x, hx, cx, la)
  | (ht, _) :: rest, i, prev, x, hx, cx, la =>
    -- lines 195-198: squeeze if the last layer was conv/pool and this is not
    let x1 := if (prev.map isSpatial).getD false && !isSpatial ht then flattenRow x else x
    match ht with
    | .linear =>
      let y := reluM (c.linearT i x1)
      fwdLoop c rest (i + 1) (some .linear) y hx cx (some y)
    | .lstm =>
      match getState hx i, getState cx i with
      | .ok hxi, .ok cxi =>
        let hc := c.lstmT i x1 (hxi, cxi)
        fwdLoop c rest (i + 1) (some .lstm) hc.1 (hx.set i (some hc.1)) (cx.set i (some hc.2)) la
      | .error e, _ => .error e
      | _, .error e => .error e
    | .gru =>
      match getState hx i with
      | .ok hxi =>
        let y := c.gruT i x1 hxi
        fwdLoop c rest (i + 1) (some .gru) y (hx.set i (some y)) cx la
      | .error e => .error e
    | .conv => fwdLoop c rest (i + 1) (some .conv) (reluM (c.convT i x1)) hx cx la
    | .pool => fwdLoop c rest (i + 1) (some .pool) (c.poolT i x1) hx cx la

/-- The input checks of `forward` (lines 185-190): for a vector network
the last input dimension must equal `input_d`; for a frame network the
first hidden layer must be conv/pool (the raise of line 190; the 4-D
shape assert of line 188 is abstracted by the flat matrix model of
frames). -/
def shapeOk (net : AC_Net) (x : Mat) : Bool :=
  match net.input_d with
  | .num n => x.all (fun row => row.length = n)
  | .triple _ _ _ => (net.hidden.head?.map (fun l => isSpatial l.1)).getD false

/-- Model of `forward(x, temperature=1)` (lines 174-221). -/
def forward (c : Cells) (net : AC_Net) (x : Mat) : Except String FwdOut :=
  if !shapeOk net x then .error "AssertionError: input shape mismatch"
  else
    match fwdLoop c net.hidden 0 none x net.hx net.cx none with
    | .error e => .error e
    | .ok (y, hx1, cx1, la) =>
      match net.hidden.getLast? with
      | none => .error "IndexError: hidden is empty"
      | some lst =>
        .ok { policy := (c.actorT y).map (softmaxRow c.expT)
              value := c.criticT y
              lin_activity := if lst.1 = .linear then la else none
              net := { net with hx := hx1, cx := cx1 } }

/-
  ## snapshot (lines 434-446)

  Sweeps `maze.useable`, setting `maze.cur_state` to each location and
  feeding `sg.get_frame(maze)` (modelled as the function `get_frame`
  applied to the location) through the agent; records value and the
  first policy row per location.  The association list of
  (location, value, policy row) stands for the `val_array`/`pol_array`
  writes keyed by `(i[1], i[0])`.
-/

structure SnapOut where
  vals : List ((ℕ × ℕ) × ℚ × List ℚ)
  agent : AC_Net
deriving DecidableEq

/-- The location loop of `snapshot`. -/
def snapLoop (c : Cells) (get_frame : ℕ × ℕ → Mat) :
    List (ℕ × ℕ) → AC_Net → List ((ℕ × ℕ) × ℚ × List ℚ) →
    Except String SnapOut
  | [], agent, acc => .ok { vals := acc.reverse, agent := agent }
  | loc :: rest, agent, acc =>
    match forward c agent (get_frame loc) with
    | .error e => .error e
    | .ok out => snapLoop c get_frame rest out.net ((loc, out.value, out.policy.headD []) :: acc)

/-- Model of `snapshot(maze, agent)`. -/
def snapshot (c : Cells) (useable : List (ℕ × ℕ)) (get_frame : ℕ × ℕ → Mat)
    (agent : AC_Net) : Except String SnapOut :=
  snapLoop c get_frame useable agent []

/-
  ## Action selection (lines 270-286)
-/

/-- Model of `Categorical(probs).sample()` drawn with the uniform variate
`u ∈ [0,1)`: inverse-CDF sampling on the normalised distribution,
written with `u` pre-scaled by the total mass. -/
def cat_sample_core : List ℚ → ℚ → ℕ
  | [], _ => 0
  | p :: ps, u => if u < p then 0 else cat_sample_core ps (u - p) + 1

/-- Model of `Categorical(probs).sample()` for the uniform draw `u`. -/
def categorical_sample (probs : List ℚ) (u : ℚ) : ℕ :=
  cat_sample_core probs (u * probs.sum)

/-- Model of `Categorical(probs).log_prob(a)`: the log of the normalised
probability of `a`; `logf` stands for the float logarithm. -/
def categorical_log_prob (logf : ℚ → ℚ) (probs : List ℚ) (a : ℕ) : ℚ :=
  logf (probs.getD a 0 / probs.sum)

/-- Model of `select_ec_action(model, mf_policy_, mf_value_, ec_policy_)`
(lines 280-286), for a batch of one: samples from the episodic
(memory-derived) distribution `a = Categorical(ec_policy_)`, appends
`SavedAction(b.log_prob(action), mf_value_)` where
`b = Categorical(mf_policy_)`, and returns
`(action.item(), mf_policy_.data[0], mf_value_.item())`. -/
def select_ec_action (logf : ℚ → ℚ) (model : AC_Net)
    (mf_policy : List ℚ) (mf_value : ℚ) (ec_policy : List ℚ) (u : ℚ) :
    AC_Net × ℕ × List ℚ × ℚ :=
  let action := categorical_sample ec_policy u
  let model1 := { model with
    saved_actions := model.saved_actions ++
      [{ log_prob := categorical_log_prob logf mf_policy action, value := mf_value }] }
  (model1, action, mf_policy, mf_value)

/-
  ## finish_trial (lines 290-352)
-/

/-- Model of `F.smooth_l1_loss` of two scalars (beta = 1, mean reduction over a
single element). -/
def smooth_l1 (pred target : ℚ) : ℚ :=
  let d := |pred - target|
  if d < 1 then d ^ 2 / 2 else d - 1 / 2

/-- An episodic memory record, the `mem_dict` of lines 324-329. -/
structure MemRec where
  activity : List ℚ
  action : ℕ
  delta : ℚ
  timestamp : ℤ
  readable : String
  trial : ℤ
deriving DecidableEq

/-- The episodic store, reduced to the sequence of records it has been
handed; `EC.add_mem` appends. -/
abbrev Memory := List MemRec

def add_mem (EC : Memory) (r : MemRec) : Memory :=
  EC ++ [r]

/-- The `buffer` kwarg of `finish_trial`: a 5-tuple indexed 0-4 in the
source (timesteps, states, actions, readable, trial). -/
structure MemBuffer where
  timesteps : List ℤ
  states : List (List ℚ)
  actions : List ℕ
  readable : List String
  trial : ℤ
deriving DecidableEq

/-- The optimizer, reduced to its observable effects: counts of
`zero_grad()` calls and of `step()` calls. -/
structure Optimizer where
  zero_grads : ℕ
  steps : ℕ
deriving DecidableEq

/-- The outcome of `finish_trial`: either the `(p_loss, v_loss)` pair or
the raised exception, together with the final state of the mutated
objects (the network, the episodic store, the optimizer), since a Python
exception leaves mutations made before the raise in place. -/
instance {ε α : Type} [DecidableEq ε] [DecidableEq α] : DecidableEq (Except ε α) := fun a b =>
  match a, b with
  | .error e1, .error e2 =>
    if h : e1 = e2 then isTrue (h ▸ rfl) else isFalse (fun hh => h (Except.error.inj hh))
  | .error _, .ok _ => isFalse (fun hh => Except.noConfusion hh)
  | .ok _, .error _ => isFalse (fun hh => Except.noConfusion hh)
  | .ok a1, .ok a2 =>
    if h : a1 = a2 then isTrue (h ▸ rfl) else isFalse (fun hh => h (Except.ok.inj hh))

structure FTOut where
  res : Except String (ℚ × ℚ)
  model : AC_Net
  cacheOut : Option Memory
  opt : Optimizer
deriving DecidableEq

/-- The memory branch of the loss loop (lines 319-331):
`zip(saved_actions, returns_, timesteps, states, actions, readable)`
truncates at the shortest sequence; each step computes
`rpe = r - value`, appends `-log_prob * rpe` and the smooth-L1 value
loss, and calls `EC.add_mem` on the per-step record. -/
def ftLoopMem : List SavedAction → List ℚ → List ℤ → List (List ℚ) →
    List ℕ → List String → ℤ → Memory → List ℚ × List ℚ × Memory
  | sa :: sas, r :: rs, t :: ts, s :: ss, a :: acts, rd :: rds, trial, EC =>
    let rpe := r - sa.value
    let rest := ftLoopMem sas rs ts ss acts rds trial
      (add_mem EC { activity := s, action := a, delta := rpe,
                    timestamp := t, readable := rd, trial := trial })
    ((-sa.log_prob * rpe) :: rest.1, smooth_l1 sa.value r :: rest.2.1, rest.2.2)
  | _, _, _, _, _, _, _, EC => ([], [], EC)

/-- The memory-free loss loop (lines 334-337). -/
def ftLoop : List SavedAction → List ℚ → List ℚ × List ℚ
  | sa :: sas, r :: rs =>
    let rpe := r - sa.value
    let rest := ftLoop sas rs
    ((-sa.log_prob * rpe) :: rest.1, smooth_l1 sa.value r :: rest.2)
  | _, _ => ([], [])

/-- Lines 339-352: `optimizer.zero_grad()`, the `torch.cat` of the two
loss lists (which raises RuntimeError on an empty list — the two lists
always have equal length, so one emptiness check suffices), the backward
pass and `optimizer.step()`, and the clearing of `model.rewards` and
`model.saved_actions`. -/
def finishUpdate (model : AC_Net) (opt : Optimizer) (cacheOut : Option Memory)
    (pl vl : List ℚ) : FTOut :=
  let opt1 : Optimizer := { opt with zero_grads := opt.zero_grads + 1 }
  if pl.isEmpty then
    { res := .error "RuntimeError: torch.cat expected a non-empty list of Tensors"
      model := model, cacheOut := cacheOut, opt := opt1 }
  else
    { res := .ok (pl.sum, vl.sum)
      model := { model with rewards := [], saved_actions := [] }
      cacheOut := cacheOut
      opt := { opt1 with steps := opt1.steps + 1 } }

/-- Model of `finish_trial(model, discount_factor, optimizer, cache=..., buffer=...)`. -/
def finish_trial (model : AC_Net) (discount_factor : ℚ) (opt : Optimizer)
    (cache : Option Memory) (buffer : Option MemBuffer) : FTOut :=
  let returns_ := discount_rwds model.rewards discount_factor
  let saved_actions := model.saved_actions
  match cache with
  | some EC =>
    match buffer with
    | none =>
      -- line 318: raised before any loss computation or memory write
      { res := .error "No memory buffer provided for kwarg buffer="
        model := model, cacheOut := some EC, opt := opt }
    | some b =>
      let r := ftLoopMem saved_actions returns_ b.timesteps b.states b.actions b.readable b.trial EC
      finishUpdate model opt (some r.2.2) r.1 r.2.1
  | none =>
    let r := ftLoop saved_actions returns_
    finishUpdate model opt none r.1 r.2

/-- The test `Except.isOk = false`, used to state that a call raises. -/
def isErr : Except String α → Bool
  | .error _ => true
  | .ok _ => false

/-
  ## Concrete instances used by the counterexample and witness theorems
-/

/-- Cells whose transforms are simple concrete functions (a particular
choice of torch weights is irrelevant to the structural claims). -/
def cells0 : Cells :=
  { linearT := fun _ x => x
    lstmT := fun _ _ hc => hc
    gruT := fun _ _ h => h
    convT := fun _ x => x
    poolT := fun _ x => x
    actorT := fun _ => []
    criticT := fun _ => 0
    expT := fun q => q }

/-- An optimizer that has done nothing yet. -/
def opt0 : Optimizer := { zero_grads := 0, steps := 0 }

/-- The network `AC_Net(4, 4, hidden_types=['linear','lstm'],
hidden_dimensions=[3,2], batch_size=4)`; equality with the output of
`AC_Net_init` is proved below. -/
def c4net : AC_Net :=
  { input_d := .num 4
    batch_size := 4
    hidden := [(.linear, .num 3), (.lstm, .num 2)]
    hx := [none, some (zerosM 4 2)]
    cx := [none, some (zerosM 4 2)]
    layers := [.num 4, .num 3, .num 2, .num 4]
    output_d := .num 2
    saved_actions := []
    rewards := [] }

/-- A batch-of-one all-zero observation of width 4. -/
def c4input : Mat := [[0, 0, 0, 0]]

/-- A frame-input network `AC_Net((1,1,1), 4,
hidden_types=['conv','gru'], hidden_dimensions=[(1,1,1), 1],
batch_size=1, rfsize=1, padding=0, stride=1)`; equality with the output
of `AC_Net_init` is proved below. -/
def c7net : AC_Net :=
  { input_d := .triple 1 1 1
    batch_size := 1
    hidden := [(.conv, .triple 1 1 1), (.gru, .num 1)]
    hx := [none, some (zerosM 1 1)]
    cx := [none, none]
    layers := [.triple 1 1 1, .triple 1 1 1, .num 1, .num 4]
    output_d := .num 1
    saved_actions := []
    rewards := [] }

/-- Cells for `c7net` whose GRU transform moves the hidden state off
zero, as the real `nn.GRUCell` does for suitable weights (for instance,
all weights zero and a positive candidate bias give a nonzero new
hidden state from a zero one). -/
def c7cells : Cells :=
  { cells0 with gruT := fun _ _ _ => [[1]] }

/-- The frame returned by `sg.get_frame` at every maze location in the
`snapshot` counterexample. -/
def c7frame : ℕ × ℕ → Mat := fun _ => [[7]]

/-- A small vector network with a single linear hidden layer and empty
trial buffers. -/
def netV : AC_Net :=
  { input_d := .num 1
    batch_size := 1
    hidden := [(.linear, .num 2)]
    hx := [none]
    cx := [none]
    layers := [.num 1, .num 2, .num 2]
    output_d := .num 2
    saved_actions := []
    rewards := [] }

/-- The frame fed to `netV` in the snapshot witness. -/
def vframe : ℕ × ℕ → Mat := fun _ => [[0]]

/-- The network `netV` after one accumulated step: one reward and one SavedAction. -/
def net1 : AC_Net :=
  { netV with rewards := [1], saved_actions := [{ log_prob := 0, value := 0 }] }

/-
  ## Theorems
-/

theorem discAux_length (gamma : ℚ) (r : List ℚ) :
    (discAux gamma r).1.length = r.length := by
  induction r with
  | nil => rfl
  | cons x xs ih => simp [discAux, ih]

theorem discAux_snd_eq_head (gamma : ℚ) (r : List ℚ) :
    (discAux gamma r).2 = (discAux gamma r).1.headD 0 := by
  cases r with
  | nil => rfl
  | cons x xs => rfl

theorem discount_rwds_length (r : List ℚ) (gamma : ℚ) :
    (discount_rwds r gamma).length = r.length :=
  discAux_length gamma r

theorem discount_rwds_cons (x : ℚ) (xs : List ℚ) (gamma : ℚ) :
    discount_rwds (x :: xs) gamma =
      ((discount_rwds xs gamma).headD 0 * gamma + x) :: discount_rwds xs gamma := by
  simp only [discount_rwds, discAux]
  rw [discAux_snd_eq_head]

theorem discount_rwds_last (r : List ℚ) (gamma : ℚ) (h : 0 < r.length) :
    (discount_rwds r gamma).getD (r.length - 1) 0 = r.getD (r.length - 1) 0 := by
  induction r with
  | nil => simp at h
  | cons x xs ih =>
    cases xs with
    | nil => simp [discount_rwds, discAux]
    | cons y ys =>
      rw [discount_rwds_cons]
      have hlen : (y :: ys).length - 1 + 1 = (x :: y :: ys).length - 1 := by
        simp
      rw [← hlen]
      simpa using ih (by simp)

theorem discount_rwds_step (r : List ℚ) (gamma : ℚ) (t : ℕ) (h : t + 1 < r.length) :
    (discount_rwds r gamma).getD t 0 =
      r.getD t 0 + gamma * (discount_rwds r gamma).getD (t + 1) 0 := by
  induction r generalizing t with
  | nil => simp at h
  | cons x xs ih =>
    rw [discount_rwds_cons]
    cases t with
    | zero =>
      have hxs : xs ≠ [] := by
        intro hc
        subst hc
        simp at h
      cases xs with
      | nil => exact absurd rfl hxs
      | cons y ys =>
        rw [discount_rwds_cons]
        simp [mul_comm]
        ring
    | succ s =>
      have hs : s + 1 < xs.length := by simpa using h
      simpa using ih s hs

theorem ftLoop_nil (rs : List ℚ) : ftLoop [] rs = ([], []) := rfl

theorem ftLoopMem_nil (rs : List ℚ) (ts : List ℤ) (ss : List (List ℚ))
    (acts : List ℕ) (rds : List String) (trial : ℤ) (EC : Memory) :
    ftLoopMem [] rs ts ss acts rds trial EC = ([], [], EC) := rfl

theorem finishUpdate_clears (m : AC_Net) (o : Optimizer) (co : Option Memory)
    (pl vl : List ℚ) (pv : ℚ × ℚ)
    (h : (finishUpdate m o co pl vl).res = .ok pv) :
    (finishUpdate m o co pl vl).model.saved_actions = [] ∧
    (finishUpdate m o co pl vl).model.rewards = [] := by
  by_cases hpl : pl.isEmpty
  · simp [finishUpdate, hpl] at h
  · simp [finishUpdate, hpl]

theorem cat_sample_core_lt (probs : List ℚ) (u : ℚ)
    (h0 : 0 ≤ u) (h1 : u < probs.sum) :
    cat_sample_core probs u < probs.length := by
  induction probs generalizing u with
  | nil =>
    simp only [List.sum_nil] at h1
    exact absurd h0 (not_le.mpr h1)
  | cons p ps ih =>
    simp only [cat_sample_core]
    split
    · simp
    · next hlt =>
      have hple : p ≤ u := not_lt.mp hlt
      have hge : 0 ≤ u - p := by linarith
      have hlt2 : u - p < ps.sum := by
        simp only [List.sum_cons] at h1
        linarith
      have := ih (u - p) hge hlt2
      simpa using this

theorem fwdLoop_no_recurrent (c : Cells) (ls : List (HType × Dims)) :
    ∀ (i : ℕ) (prev : Option HType) (x : Mat) (hx cx : List (Option Mat))
      (la : Option Mat) (y : Mat) (hx1 cx1 : List (Option Mat)) (la1 : Option Mat),
      ls.all (fun l => !isRecurrent l.1) = true →
      fwdLoop c ls i prev x hx cx la = .ok (y, hx1, cx1, la1) →
      hx1 = hx ∧ cx1 = cx := by
  induction ls with
  | nil =>
    intro i prev x hx cx la y hx1 cx1 la1 _ h
    have := Except.ok.inj h
    exact ⟨(congrArg (fun q => q.2.1) this).symm, (congrArg (fun q => q.2.2.1) this).symm⟩
  | cons l rest ih =>
    intro i prev x hx cx la y hx1 cx1 la1 hall h
    obtain ⟨lt, ld⟩ := l
    simp only [List.all_cons, Bool.and_eq_true] at hall
    cases lt with
    | linear => exact ih (i + 1) (some .linear) _ hx cx _ y hx1 cx1 la1 hall.2 h
    | conv => exact ih (i + 1) (some .conv) _ hx cx la y hx1 cx1 la1 hall.2 h
    | pool => exact ih (i + 1) (some .pool) _ hx cx la y hx1 cx1 la1 hall.2 h
    | lstm => simp [isRecurrent] at hall
    | gru => simp [isRecurrent] at hall

theorem forward_fields (c : Cells) (net : AC_Net) (x : Mat) (o : FwdOut)
    (h : forward c net x = .ok o) :
    o.net.saved_actions = net.saved_actions ∧
    o.net.rewards = net.rewards ∧
    o.net.hidden = net.hidden ∧
    o.net.input_d = net.input_d ∧
    o.net.batch_size = net.batch_size ∧
    o.net.layers = net.layers ∧
    o.net.output_d = net.output_d ∧
    (net.hidden.all (fun l => !isRecurrent l.1) = true → o.net = net) := by
  unfold forward at h
  split at h
  · exact absurd h (fun hh => Except.noConfusion hh)
  · split at h
    · exact absurd h (fun hh => Except.noConfusion hh)
    · next y hx1 cx1 la hloop =>
      split at h
      · exact absurd h (fun hh => Except.noConfusion hh)
      · have ho := Except.ok.inj h
        subst ho
        refine ⟨rfl, rfl, rfl, rfl, rfl, rfl, rfl, ?_⟩
        intro hrec
        obtain ⟨e1, e2⟩ := fwdLoop_no_recurrent c net.hidden 0 none x net.hx net.cx
          none y hx1 cx1 la hrec hloop
        simp only [e1, e2]

theorem snapLoop_fields (c : Cells) (gf : ℕ × ℕ → Mat) :
    ∀ (locs : List (ℕ × ℕ)) (agent : AC_Net) (acc : List ((ℕ × ℕ) × ℚ × List ℚ))
      (out : SnapOut), snapLoop c gf locs agent acc = .ok out →
      out.agent.saved_actions = agent.saved_actions ∧
      out.agent.rewards = agent.rewards ∧
      out.agent.hidden = agent.hidden ∧
      out.agent.input_d = agent.input_d ∧
      out.agent.batch_size = agent.batch_size ∧
      out.agent.layers = agent.layers ∧
      out.agent.output_d = agent.output_d ∧
      (agent.hidden.all (fun l => !isRecurrent l.1) = true → out.agent = agent) := by
  intro locs
  induction locs with
  | nil =>
    intro agent acc out h
    have ho := Except.ok.inj h
    subst ho
    exact ⟨rfl, rfl, rfl, rfl, rfl, rfl, rfl, fun _ => rfl⟩
  | cons loc rest ih =>
    intro agent acc out h
    simp only [snapLoop] at h
    split at h
    · exact absurd h (fun hh => Except.noConfusion hh)
    · next o hfwd =>
      obtain ⟨i1, i2, i3, i4, i5, i6, i7, i8⟩ := ih o.net _ out h
      obtain ⟨f1, f2, f3, f4, f5, f6, f7, f8⟩ := forward_fields c agent (gf loc) o hfwd
      refine ⟨i1.trans f1, i2.trans f2, i3.trans f3, i4.trans f4, i5.trans f5,
        i6.trans f6, i7.trans f7, ?_⟩
      intro hrec
      have hnet := f8 hrec
      rw [hnet] at i8
      exact i8 hrec

/-- C1: for every reward sequence `r` and discount `g`, `discount_rwds`
(the discounted-return computation used by `finish_trial`) returns a
sequence `G` of the same length with `G[n-1] = r[n-1]` and
`G[t] = r[t] + g*G[t+1]` for every `t < n-1`. -/
theorem discount_rwds_spec (r : List ℚ) (g : ℚ) :
    (discount_rwds r g).length = r.length ∧
    (0 < r.length →
      (discount_rwds r g).getD (r.length - 1) 0 = r.getD (r.length - 1) 0) ∧
    (∀ t, t + 1 < r.length →
      (discount_rwds r g).getD t 0 =
        r.getD t 0 + g * (discount_rwds r g).getD (t + 1) 0) :=
  ⟨discount_rwds_length r g,
   fun h => discount_rwds_last r g h,
   fun t ht => discount_rwds_step r g t ht⟩

/-- Witness for C1 at `r = [3, 1, 2]`, `g = 1/2`, `t = 0`. -/
theorem discount_rwds_spec_witness :
    (discount_rwds [(3 : ℚ), 1, 2] (1 / 2)).getD 0 0 =
      [(3 : ℚ), 1, 2].getD 0 0 +
        (1 / 2) * (discount_rwds [(3 : ℚ), 1, 2] (1 / 2)).getD 1 0 :=
  (discount_rwds_spec [(3 : ℚ), 1, 2] (1 / 2)).2.2 0 (by decide)

/-- C2: `select_ec_action` samples the chosen action from the
memory-derived (`ec_policy_`) distribution, appends to `saved_actions`
exactly one `SavedAction` whose log-probability is the network
(`mf_policy_`) distribution evaluated at that sampled action and whose
value is the network value estimate `mf_value_`, and returns the sampled
action together with the network policy and value. -/
theorem select_ec_action_spec (logf : ℚ → ℚ) (model : AC_Net)
    (mf_policy : List ℚ) (mf_value : ℚ) (ec_policy : List ℚ) (u : ℚ)
    (h0 : 0 ≤ u) (h1 : u < 1) (hsum : 0 < ec_policy.sum) :
    (select_ec_action logf model mf_policy mf_value ec_policy u).1.saved_actions =
      model.saved_actions ++
        [{ log_prob := categorical_log_prob logf mf_policy (categorical_sample ec_policy u)
           value := mf_value }] ∧
    (select_ec_action logf model mf_policy mf_value ec_policy u).2.1 =
      categorical_sample ec_policy u ∧
    categorical_sample ec_policy u < ec_policy.length ∧
    (select_ec_action logf model mf_policy mf_value ec_policy u).2.2.1 = mf_policy ∧
    (select_ec_action logf model mf_policy mf_value ec_policy u).2.2.2 = mf_value := by
  refine ⟨rfl, rfl, ?_, rfl, rfl⟩
  have hu : 0 ≤ u * ec_policy.sum := mul_nonneg h0 (le_of_lt hsum)
  have hlt : u * ec_policy.sum < ec_policy.sum := (mul_lt_iff_lt_one_left hsum).mpr h1
  exact cat_sample_core_lt ec_policy (u * ec_policy.sum) hu hlt

/-- Witness for C2 with a 4-action network policy, a 2-entry memory
policy, and the uniform draw `u = 0`. -/
theorem select_ec_action_spec_witness :
    (select_ec_action id netV [1, 0, 0, 0] 7 [1, 0] 0).1.saved_actions =
      netV.saved_actions ++
        [{ log_prob := categorical_log_prob id [1, 0, 0, 0]
             (categorical_sample [1, 0] 0)
           value := 7 }] ∧
    (select_ec_action id netV [1, 0, 0, 0] 7 [1, 0] 0).2.1 =
      categorical_sample [1, 0] 0 ∧
    categorical_sample [(1 : ℚ), 0] 0 < [(1 : ℚ), 0].length ∧
    (select_ec_action id netV [1, 0, 0, 0] 7 [1, 0] 0).2.2.1 = [1, 0, 0, 0] ∧
    (select_ec_action id netV [1, 0, 0, 0] 7 [1, 0] 0).2.2.2 = 7 :=
  select_ec_action_spec id netV [1, 0, 0, 0] 7 [1, 0] 0
    (le_refl 0) one_pos (by simp)

/-- C3: the end-to-end no-hidden-layer scenario fails in the code:
`AC_Net(input_dimensions=4, action_dimensions=4, hidden_types=[],
hidden_dimensions=[])` raises IndexError at the `hidden_types[0]` access
of the input-kind assert, so the network cannot even be built, although
the class docstring says an empty list means no hidden layers are
used. -/
theorem no_hidden_net_init_fails :
    AC_Net_init (.num 4) 4 [] [] 4 4 1 1 =
      .error "IndexError: hidden_types index out of range" := rfl

/-- C4: the code violates the claim.  For the constructed network
`AC_Net(4, 4, hidden_types=['linear','lstm'], hidden_dimensions=[3,2],
batch_size=4)`, `__init__` leaves `hx` index-aligned with the layer
list, but `reinit_hid()` rebuilds `hx`/`cx` with entries only for
recurrent layers: the rebuilt `hx` is the compacted `[zeros(4,2)]` of
length 1 (each entry is still an all-zero tensor of the declared
width), no longer aligned with the 2-layer list, and the subsequent
forward pass reads `self.hx[1]` for the lstm layer, which no longer
exists. -/
theorem reinit_hid_misaligns :
    AC_Net_init (.num 4) 4 [.linear, .lstm] [.num 3, .num 2] 4 4 1 1 = .ok c4net ∧
    c4net.hx.length = c4net.hidden.length ∧
    (reinit_hid c4net).hx = [some (zerosM 4 2)] ∧
    (reinit_hid c4net).hx.length ≠ c4net.hidden.length ∧
    isErr (forward cells0 (reinit_hid c4net) c4input) = true := by
  refine ⟨?_, ?_, ?_, ?_, ?_⟩ <;> decide

/-- C5: `finish_trial` given a memory store (`cache`) but no `buffer`
kwarg raises the missing-buffer configuration error before any memory
write: the returned state carries the raised exception and the episodic
store exactly as it was handed in. -/
theorem finish_trial_missing_buffer_raises (model : AC_Net) (g : ℚ)
    (opt : Optimizer) (EC : Memory) :
    finish_trial model g opt (some EC) none =
      { res := .error "No memory buffer provided for kwarg buffer="
        model := model
        cacheOut := some EC
        opt := opt } := rfl

/-- C6: after every successful (non-raising) `finish_trial` call, the
network's `saved_actions` and `rewards` lists are both empty, whether or
not a memory store was supplied. -/
theorem finish_trial_clears (model : AC_Net) (g : ℚ) (opt : Optimizer)
    (cache : Option Memory) (buffer : Option MemBuffer) (pv : ℚ × ℚ)
    (h : (finish_trial model g opt cache buffer).res = .ok pv) :
    (finish_trial model g opt cache buffer).model.saved_actions = [] ∧
    (finish_trial model g opt cache buffer).model.rewards = [] := by
  cases cache with
  | none =>
    exact finishUpdate_clears model opt none
      (ftLoop model.saved_actions (discount_rwds model.rewards g)).1
      (ftLoop model.saved_actions (discount_rwds model.rewards g)).2 pv h
  | some EC =>
    cases buffer with
    | none => exact absurd h (fun hh => Except.noConfusion hh)
    | some b =>
      exact finishUpdate_clears model opt _ _ _ pv h

/-- Witness for C6: a successful `finish_trial` on a one-step trial. -/
theorem finish_trial_clears_witness :
    (finish_trial net1 (1 / 2) opt0 none none).model.saved_actions = [] ∧
    (finish_trial net1 (1 / 2) opt0 none none).model.rewards = [] :=
  finish_trial_clears net1 (1 / 2) opt0 none none _ rfl

/-- C7 counterexample: the snapshot sweep does NOT leave the network
state unchanged.  For the constructible frame network `c7net` with a
gru layer (and a GRU transform that, like the real `nn.GRUCell` with
suitable weights, moves a zero hidden state), one `snapshot` call
returns an agent whose `hx` differs from the input agent's. -/
theorem snapshot_mutates_recurrent_state :
    AC_Net_init (.triple 1 1 1) 4 [.conv, .gru] [.triple 1 1 1, .num 1] 1 1 0 1 =
      .ok c7net ∧
    snapshot c7cells [(0, 0)] c7frame c7net =
      .ok { vals := [((0, 0), 0, [])]
            agent := { c7net with hx := [none, some [[1]]] } } ∧
    c7net.hx = [none, some [[0]]] ∧
    { c7net with hx := [none, some [[1]]] } ≠ c7net := by
  refine ⟨rfl, rfl, rfl, ?_⟩
  intro h
  have hx := congrArg AC_Net.hx h
  simp [c7net, zerosM] at hx

/-- C7 (amended): the snapshot sweep appends no SavedAction records,
takes no optimizer and no memory store (so performs no optimizer step
and writes no memory records), and leaves the trial bookkeeping
(`saved_actions`, `rewards`) and the network's layers unchanged; a
network with no recurrent layers is returned fully unchanged.  (The
recurrent hidden/cell state, by contrast, IS updated by the sweep's
forward passes, as the counterexample shows.) -/
theorem snapshot_preserves_bookkeeping (c : Cells) (useable : List (ℕ × ℕ))
    (gf : ℕ × ℕ → Mat) (agent : AC_Net) (out : SnapOut)
    (h : snapshot c useable gf agent = .ok out) :
    out.agent.saved_actions = agent.saved_actions ∧
    out.agent.rewards = agent.rewards ∧
    out.agent.hidden = agent.hidden ∧
    out.agent.layers = agent.layers ∧
    (noRecurrent agent = true → out.agent = agent) := by
  obtain ⟨i1, i2, i3, _, _, i6, _, i8⟩ := snapLoop_fields c gf useable agent [] out h
  exact ⟨i1, i2, i3, i6, i8⟩

/-- Witness for the amended C7: a successful snapshot sweep of a
one-location maze with the linear network `netV`. -/
theorem snapshot_preserves_bookkeeping_witness :
    (SnapOut.mk [((0, 0), 0, [])] netV).agent.saved_actions = netV.saved_actions ∧
    (SnapOut.mk [((0, 0), 0, [])] netV).agent.rewards = netV.rewards ∧
    (SnapOut.mk [((0, 0), 0, [])] netV).agent.hidden = netV.hidden ∧
    (SnapOut.mk [((0, 0), 0, [])] netV).agent.layers = netV.layers ∧
    (noRecurrent netV = true → (SnapOut.mk [((0, 0), 0, [])] netV).agent = netV) :=
  snapshot_preserves_bookkeeping cells0 [(0, 0)] vframe netV
    (SnapOut.mk [((0, 0), 0, [])] netV) rfl

/-- C8: `finish_trial` called with zero accumulated rewards and zero
SavedAction records always raises (either the missing-buffer error or
the `torch.cat` RuntimeError on the empty loss list) and never reaches
`optimizer.step()`. -/
theorem finish_trial_empty_fails (model : AC_Net) (g : ℚ) (opt : Optimizer)
    (cache : Option Memory) (buffer : Option MemBuffer)
    (_h1 : model.rewards = []) (h2 : model.saved_actions = []) :
    isErr (finish_trial model g opt cache buffer).res = true ∧
    (finish_trial model g opt cache buffer).opt.steps = opt.steps := by
  cases cache with
  | none =>
    simp only [finish_trial]
    rw [h2]
    exact ⟨rfl, rfl⟩
  | some EC =>
    cases buffer with
    | none => exact ⟨rfl, rfl⟩
    | some b =>
      simp only [finish_trial]
      rw [h2]
      exact ⟨rfl, rfl⟩

/-- Witness for C8: `finish_trial` on `netV`, whose reward and
SavedAction lists are empty. -/
theorem finish_trial_empty_fails_witness :
    isErr (finish_trial netV 1 opt0 none none).res = true ∧
    (finish_trial netV 1 opt0 none none).opt.steps = opt0.steps :=
  finish_trial_empty_fails netV 1 opt0 none none rfl rfl

/-- C9: network construction fails whenever the hidden-types list and
the hidden-dimensions list have different lengths (via the length
assert of line 86, or via the IndexError/AssertionError of the
input-kind check of lines 75-80, both of which precede it). -/
theorem init_length_mismatch_fails (input_dimensions : Dims) (action_dimensions : ℕ)
    (hidden_types : List HType) (hidden_dimensions : List Dims)
    (batch_size rfsize padding stride : ℕ)
    (h : hidden_types.length ≠ hidden_dimensions.length) :
    isErr (AC_Net_init input_dimensions action_dimensions hidden_types
      hidden_dimensions batch_size rfsize padding stride) = true := by
  cases hidden_types with
  | nil => rfl
  | cons h0 t =>
    simp only [AC_Net_init, List.head?]
    split
    · rfl
    · rfl

/-- Witness for C9: 3 hidden types against 2 hidden dimensions. -/
theorem init_length_mismatch_fails_witness :
    isErr (AC_Net_init (.num 4) 4 [.linear, .linear, .linear]
      [.num 1, .num 2] 4 4 1 1) = true :=
  init_length_mismatch_fails (.num 4) 4 [.linear, .linear, .linear]
    [.num 1, .num 2] 4 4 1 1 (by decide)

/-- C10: when `finish_trial` raises the missing-buffer error, the call
is atomic: the raised result is accompanied by an unmodified episodic
store (no memory record written), an unmodified optimizer (no zero_grad
and no step), and the network's rewards and saved_actions exactly as
they were. -/
theorem finish_trial_missing_buffer_atomic (model : AC_Net) (g : ℚ)
    (opt : Optimizer) (EC : Memory) :
    isErr (finish_trial model g opt (some EC) none).res = true ∧
    (finish_trial model g opt (some EC) none).cacheOut = some EC ∧
    (finish_trial model g opt (some EC) none).opt.steps = opt.steps ∧
    (finish_trial model g opt (some EC) none).opt.zero_grads = opt.zero_grads ∧
    (finish_trial model g opt (some EC) none).model.rewards = model.rewards ∧
    (finish_trial model g opt (some EC) none).model.saved_actions = model.saved_actions :=
  ⟨rfl, rfl, rfl, rfl, rfl, rfl⟩
